import Mathlib

/-
Shallow embedding of the token-bucket rate limiter
(package ratelimiter, src/unnamed/part_011) and of the
multi-dimensional API-client wrapper (src/client/example_test.go,
package client).

Machine integers: the Go fields are `int` and `time.Duration` (int64).
No arithmetic here ever approaches overflow, and the channel length and
capacity are non-negative by construction, so token counts are Nat and
durations are Int (nanoseconds).

Concurrency: each operation is embedded as a pure state transformer.
The two genuine races of the source are passed in explicitly:
a `select` with several ready cases takes a boolean pick, and a Wait
that blocks takes a `BlockedOutcome` describing which event (if any)
eventually wakes it. Theorems quantify over these choices.
-/

namespace RateLimiter

/-- Error values observable through the limiter API. The ratelimiter
package's errors file is not under src; per the spec the stopped error is
a distinct sentinel, modelled as its own constructor, distinct from the
context errors (context.Canceled, context.DeadlineExceeded). -/
inductive GoError where
  | rateLimiterStopped
  | ctxCanceled
  | ctxDeadlineExceeded
deriving DecidableEq, Repr

/-- Sentinel returned by Wait on a stopped bucket (part_011 line 83). -/
def ErrRateLimiterStopped : GoError := GoError.rateLimiterStopped

/-- A Go context as Wait observes it: whether ctx.Done() is already
closed at the moment of the call, and the value ctx.Err() reports once
done (context.Canceled or context.DeadlineExceeded). -/
structure Ctx where
  done : Bool
  err : GoError
deriving DecidableEq, Repr

/-- part_011 line 10. -/
def DefaultBucketSize : Int := 10

/-- part_011 line 11: time.Second, in nanoseconds. -/
def DefaultRefillRate : Int := 1000000000

/-- The TokenBucket struct (part_011 lines 14-22). `tokens` is the
number of values buffered in the tokens channel (its capacity is
`bucketSize`); `tickerActive` and `stopChClosed` model the ticker and
the stop channel; the mutex only guards `stopped` and needs no separate
state in a sequential embedding. -/
structure TokenBucket where
  bucketSize : Nat
  refillRate : Int
  tokens : Nat
  tickerActive : Bool
  stopChClosed : Bool
  stopped : Bool
deriving DecidableEq, Repr

/-- NewTokenBucket (part_011 lines 24-47): default substitution for
non-positive arguments, a tokens channel of capacity bucketSize
pre-filled with bucketSize values, a running ticker, an open stop
channel. After substitution the size is positive, so Int.toNat is exact. -/
def NewTokenBucket (bucketSize refillRate : Int) : TokenBucket :=
  let bs := if bucketSize ≤ 0 then DefaultBucketSize else bucketSize
  let rr := if refillRate ≤ 0 then DefaultRefillRate else refillRate
  { bucketSize := bs.toNat
    refillRate := rr
    tokens := bs.toNat
    tickerActive := true
    stopChClosed := false
    stopped := false }

/-- Allow (part_011 lines 63-77): under the read lock, a stopped bucket
returns false; otherwise a non-blocking receive on tokens (select with
default) succeeds exactly when the channel is non-empty. -/
def TokenBucket.Allow (tb : TokenBucket) : Bool × TokenBucket :=
  if tb.stopped then (false, tb)
  else if 0 < tb.tokens then (true, { tb with tokens := tb.tokens - 1 })
  else (false, tb)

/-- AvailableTokens (part_011 lines 108-110): len(tb.tokens). -/
def TokenBucket.AvailableTokens (tb : TokenBucket) : Nat := tb.tokens

/-- BucketSize (part_011 lines 112-114). -/
def TokenBucket.BucketSize (tb : TokenBucket) : Nat := tb.bucketSize

/-- RefillRate (part_011 lines 116-118). -/
def TokenBucket.RefillRate (tb : TokenBucket) : Int := tb.refillRate

/-- Stop (part_011 lines 95-106): under the write lock, a second call
returns before touching anything; the first call sets stopped, stops the
ticker and closes the stop channel. -/
def TokenBucket.Stop (tb : TokenBucket) : TokenBucket :=
  if tb.stopped then tb
  else { tb with stopped := true, tickerActive := false, stopChClosed := true }

/-- One delivered tick handled by the refillTokens loop (part_011 lines
49-61): the inner select either sends one token into the buffered
channel (possible exactly when tokens < bucketSize) or hits default and
discards the tick. Ticker ticks do not accumulate (time.Ticker keeps at
most one pending tick), so each handled tick adds at most one token. -/
def refillTick (tb : TokenBucket) : TokenBucket :=
  if tb.tokens < tb.bucketSize then { tb with tokens := tb.tokens + 1 } else tb

/-- Result of a Wait call: nil, or an error. -/
inductive WaitRes where
  | ok
  | err (e : GoError)
deriving DecidableEq, Repr

/-- Readiness of the select in Wait (part_011 lines 87-92): its only
cases are a receive on tb.tokens and a receive on ctx.Done(). Note that
tb.stopCh is not among the cases, so closing it never makes this select
ready. -/
def TokenBucket.waitSelectReady (tb : TokenBucket) (ctx : Ctx) : Bool :=
  decide (0 < tb.tokens) || ctx.done

/-- What eventually happens to a Wait whose select has no ready case at
entry and therefore blocks: a refill delivers a token straight to it, or
the context becomes done, or neither ever happens and the call never
returns. -/
inductive BlockedOutcome where
  | granted
  | canceled
  | stuck
deriving DecidableEq, Repr

/-- Wait (part_011 lines 79-93): under the read lock a stopped bucket
returns ErrRateLimiterStopped; otherwise a select on the tokens channel
and ctx.Done(). `pickToken` resolves the race when both cases are ready
at entry (Go select picks uniformly among ready cases); `bo` resolves a
blocked call (a token granted while blocked passes through the channel
to the waiter, so the buffered count is unchanged). `none` models a call
that never returns. -/
def TokenBucket.Wait (tb : TokenBucket) (ctx : Ctx) (pickToken : Bool)
    (bo : BlockedOutcome) : Option (WaitRes × TokenBucket) :=
  if tb.stopped then some (WaitRes.err ErrRateLimiterStopped, tb)
  else if 0 < tb.tokens then
    if ctx.done && !pickToken then some (WaitRes.err ctx.err, tb)
    else some (WaitRes.ok, { tb with tokens := tb.tokens - 1 })
  else if ctx.done then some (WaitRes.err ctx.err, tb)
  else
    match bo with
    | BlockedOutcome.granted => some (WaitRes.ok, tb)
    | BlockedOutcome.canceled => some (WaitRes.err ctx.err, tb)
    | BlockedOutcome.stuck => none

/-- One completed client-visible event on a bucket; a wait op carries
that call's context and its nondeterministic scheduling choices. -/
inductive Op where
  | allow
  | wait (ctx : Ctx) (pickToken : Bool) (bo : BlockedOutcome)
  | tick
  | stop
deriving DecidableEq, Repr

/-- Effect of one event on the bucket state. A wait that never returns
leaves the state unchanged. -/
def step (tb : TokenBucket) : Op → TokenBucket
  | Op.allow => (tb.Allow).2
  | Op.wait ctx p bo =>
      match tb.Wait ctx p bo with
      | some (_, tb2) => tb2
      | none => tb
  | Op.tick => refillTick tb
  | Op.stop => tb.Stop

/-- A finite history of events applied in order. -/
def run (tb : TokenBucket) (ops : List Op) : TokenBucket := ops.foldl step tb

/-- n consecutive Allow calls, collecting the returned booleans. -/
def allowN (tb : TokenBucket) : Nat → List Bool × TokenBucket
  | 0 => ([], tb)
  | n + 1 =>
      let r := tb.Allow
      let rest := allowN r.2 n
      (r.1 :: rest.1, rest.2)

end RateLimiter

namespace Client

open RateLimiter

/-- The two limiters of APIClient (src/client/example_test.go): one
gating request count, one gating token (unit) count. The openai client
and the logger carry no state the claims touch. -/
structure APIClient where
  requestLimiter : TokenBucket
  tokenLimiter : TokenBucket
deriving DecidableEq, Repr

/-- Result of CreateChatCompletion, by return site: the gated API call
succeeded, the gated API call itself failed, the request-limiter Wait
failed (wrapped as request rate limit exceeded), or a token-limiter Wait
failed (wrapped as token rate limit exceeded). -/
inductive CCResult where
  | ok
  | apiErr
  | reqLimitErr (e : GoError)
  | tokLimitErr (e : GoError)
deriving DecidableEq, Repr

/-- Scheduling choices for one Wait call: the select race pick and the
outcome if it blocks. -/
structure WaitEnv where
  pickToken : Bool
  blocked : BlockedOutcome
deriving DecidableEq, Repr

/-- The input-token estimate actually used: countInputTokens may fail
(its result is passed in here, since it calls the external tiktoken
library), and on error the code logs and sets inputTokens to 0. -/
def inputTokensOf : Except String Nat → Nat
  | Except.error _ => 0
  | Except.ok n => n

/-- The per-unit acquisition loop of CreateChatCompletion:
for i := 0; i < inputTokens; i++ \x7b if err := tokenLimiter.Wait(ctx);
err != nil \x7b return wrapped err \x7d \x7d. Returns the bucket state
reached, or none if some Wait never returns. -/
def tokenWaitLoop (ctx : Ctx) (envs : Nat → WaitEnv) :
    TokenBucket → Nat → Option (Except GoError Unit × TokenBucket)
  | tb, 0 => some (Except.ok (), tb)
  | tb, n + 1 =>
      match tb.Wait ctx (envs 0).pickToken (envs 0).blocked with
      | none => none
      | some (WaitRes.err e, tb2) => some (Except.error e, tb2)
      | some (WaitRes.ok, tb2) => tokenWaitLoop ctx (fun i => envs (i + 1)) tb2 n

/-- CreateChatCompletion (src/client/example_test.go lines 138-191),
admission part: compute the input-token estimate, Wait once on the
request limiter, then Wait inputTokens times on the token limiter; any
Wait error returns wrapped, before the gated API call. The returned Bool
records whether the gated call c.client.Chat.Completions.New executed;
apiOk is that external call's outcome. none models a run in which a Wait
never returns (the gated call does not execute there either). -/
def CreateChatCompletion (c : APIClient) (ctx : Ctx)
    (countResult : Except String Nat) (reqEnv : WaitEnv)
    (tokEnvs : Nat → WaitEnv) (apiOk : Bool) :
    Option (CCResult × APIClient × Bool) :=
  match c.requestLimiter.Wait ctx reqEnv.pickToken reqEnv.blocked with
  | none => none
  | some (WaitRes.err e, rl2) =>
      some (CCResult.reqLimitErr e, ⟨rl2, c.tokenLimiter⟩, false)
  | some (WaitRes.ok, rl2) =>
      match tokenWaitLoop ctx tokEnvs c.tokenLimiter (inputTokensOf countResult) with
      | none => none
      | some (Except.error e, tl2) =>
          some (CCResult.tokLimitErr e, ⟨rl2, tl2⟩, false)
      | some (Except.ok _, tl2) =>
          some (if apiOk then CCResult.ok else CCResult.apiErr, ⟨rl2, tl2⟩, true)

end Client

namespace RateLimiter

theorem run_nil (tb : TokenBucket) : run tb [] = tb := rfl

theorem run_cons (tb : TokenBucket) (op : Op) (ops : List Op) :
    run tb (op :: ops) = run (step tb op) ops := rfl

/-- Every event preserves the bucket size, preserves the token bound,
and never resets the stopped flag. -/
theorem step_invariant (tb : TokenBucket) (op : Op) :
    (step tb op).bucketSize = tb.bucketSize ∧
    (tb.tokens ≤ tb.bucketSize → (step tb op).tokens ≤ tb.bucketSize) ∧
    (tb.stopped = true → (step tb op).stopped = true) := by
  cases op with
  | allow =>
      unfold step TokenBucket.Allow
      cases h1 : tb.stopped
      · by_cases h2 : 0 < tb.tokens <;> simp [h2] <;> omega
      · simp [h1]
  | wait ctx p bo =>
      unfold step TokenBucket.Wait
      cases h1 : tb.stopped
      · by_cases h2 : 0 < tb.tokens
        · cases h3 : (ctx.done && !p) <;> simp [h2, h3] <;> omega
        · cases h3 : ctx.done
          · cases bo <;> simp [h2, h3]
          · simp [h2, h3]
      · simp [h1]
  | tick =>
      unfold step refillTick
      by_cases h : tb.tokens < tb.bucketSize
      · simp [h]; omega
      · simp [h]
  | stop =>
      unfold step TokenBucket.Stop
      cases h1 : tb.stopped <;> simp [h1]

/-- Only a refill tick can increase the token count. -/
theorem step_tokens_le_of_ne_tick (tb : TokenBucket) (op : Op) (h : op ≠ Op.tick) :
    (step tb op).tokens ≤ tb.tokens := by
  cases op with
  | allow =>
      unfold step TokenBucket.Allow
      cases h1 : tb.stopped
      · by_cases h2 : 0 < tb.tokens <;> simp [h2]
      · simp
  | wait ctx p bo =>
      unfold step TokenBucket.Wait
      cases h1 : tb.stopped
      · by_cases h2 : 0 < tb.tokens
        · cases h3 : (ctx.done && !p) <;> simp [h2, h3]
        · cases h3 : ctx.done
          · cases bo <;> simp [h2, h3]
          · simp [h2, h3]
      · simp
  | tick => exact absurd rfl h
  | stop =>
      unfold step TokenBucket.Stop
      cases h1 : tb.stopped <;> simp

theorem run_bucketSize (ops : List Op) : ∀ tb : TokenBucket,
    (run tb ops).bucketSize = tb.bucketSize := by
  induction ops with
  | nil => intro tb; rfl
  | cons op ops ih =>
      intro tb
      rw [run_cons, ih, (step_invariant tb op).1]

theorem run_tokens_le_bucketSize (ops : List Op) : ∀ tb : TokenBucket,
    tb.tokens ≤ tb.bucketSize → (run tb ops).tokens ≤ (run tb ops).bucketSize := by
  induction ops with
  | nil => intro tb h; exact h
  | cons op ops ih =>
      intro tb h
      rw [run_cons]
      refine ih (step tb op) ?_
      rw [(step_invariant tb op).1]
      exact (step_invariant tb op).2.1 h

theorem run_stopped_mono (ops : List Op) : ∀ tb : TokenBucket,
    tb.stopped = true → (run tb ops).stopped = true := by
  induction ops with
  | nil => intro tb h; exact h
  | cons op ops ih =>
      intro tb h
      rw [run_cons]
      exact ih (step tb op) ((step_invariant tb op).2.2 h)

theorem run_tokens_mono_no_tick (ops : List Op) : ∀ tb : TokenBucket,
    Op.tick ∉ ops → (run tb ops).tokens ≤ tb.tokens := by
  induction ops with
  | nil => intro tb _; exact le_refl _
  | cons op ops ih =>
      intro tb h
      rw [List.mem_cons] at h
      push_neg at h
      rw [run_cons]
      exact le_trans (ih (step tb op) h.2) (step_tokens_le_of_ne_tick tb op (Ne.symm h.1))

/-- Draining a bucket that holds at least n tokens: n consecutive Allow
calls all return true and remove exactly n tokens. -/
theorem allowN_full (n : Nat) : ∀ tb : TokenBucket, tb.stopped = false →
    n ≤ tb.tokens →
    allowN tb n = (List.replicate n true, { tb with tokens := tb.tokens - n }) := by
  induction n with
  | zero =>
      intro tb h1 h2
      simp [allowN]
  | succ n ih =>
      intro tb h1 h2
      have ht : 0 < tb.tokens := by omega
      have ha : tb.Allow = (true, { tb with tokens := tb.tokens - 1 }) := by
        unfold TokenBucket.Allow
        simp [h1, ht]
      have ih2 := ih { tb with tokens := tb.tokens - 1 } (by simp [h1]) (by simp; omega)
      have harith : tb.tokens - 1 - n = tb.tokens - (n + 1) := by omega
      simp [allowN, ha, ih2, List.replicate, harith]

end RateLimiter

namespace RateLimiter

/-- C2: after Stop() has completed, every subsequent Allow (TryAcquire)
returns false with the bucket unchanged (nothing consumed) and every
subsequent Wait (Acquire) returns the distinct ErrRateLimiterStopped
sentinel with the bucket unchanged, whatever the remaining token count,
the context and the scheduling choices; the sentinel is distinct from
both context errors. -/
theorem stopped_bucket_refuses (tb : TokenBucket) (ctx : Ctx) (p : Bool)
    (bo : BlockedOutcome) :
    (tb.Stop).Allow = (false, tb.Stop) ∧
    (tb.Stop).Wait ctx p bo = some (WaitRes.err ErrRateLimiterStopped, tb.Stop) ∧
    ErrRateLimiterStopped ≠ GoError.ctxCanceled ∧
    ErrRateLimiterStopped ≠ GoError.ctxDeadlineExceeded := by
  have hs : (tb.Stop).stopped = true := by
    unfold TokenBucket.Stop
    cases h : tb.stopped <;> simp [h]
  refine ⟨?_, ?_, by decide, by decide⟩
  · unfold TokenBucket.Allow
    simp [hs]
  · unfold TokenBucket.Wait
    simp [hs]

/-- C3: for every configuration and every finite history of Allow, Wait,
refill-tick and Stop events, the count reported by AvailableTokens stays
in the closed interval from 0 to the configured capacity (the bucket
size after default substitution). -/
theorem availableTokens_in_range (cap rate : Int) (ops : List Op) :
    0 ≤ (run (NewTokenBucket cap rate) ops).AvailableTokens ∧
    (run (NewTokenBucket cap rate) ops).AvailableTokens ≤
      (NewTokenBucket cap rate).BucketSize := by
  refine ⟨Nat.zero_le _, ?_⟩
  have h0 : (NewTokenBucket cap rate).tokens ≤ (NewTokenBucket cap rate).bucketSize :=
    le_of_eq rfl
  have h1 := run_tokens_le_bucketSize ops (NewTokenBucket cap rate) h0
  have h2 := run_bucketSize ops (NewTokenBucket cap rate)
  unfold TokenBucket.AvailableTokens TokenBucket.BucketSize
  omega

/-- C5: one handled refill tick adds exactly one token when the bucket
is below capacity, is a no-op when it is at (or above) capacity, never
adds more than one token, and never pushes the count past capacity. -/
theorem refill_adds_at_most_one (tb : TokenBucket) :
    (refillTick tb).tokens ≤ tb.tokens + 1 ∧
    (tb.tokens < tb.bucketSize → (refillTick tb).tokens = tb.tokens + 1) ∧
    (tb.bucketSize ≤ tb.tokens → refillTick tb = tb) ∧
    (tb.tokens ≤ tb.bucketSize → (refillTick tb).tokens ≤ tb.bucketSize) := by
  refine ⟨?_, ?_, ?_, ?_⟩
  · unfold refillTick
    by_cases h : tb.tokens < tb.bucketSize <;> simp [h]
  · intro h
    unfold refillTick
    simp [h]
  · intro h
    unfold refillTick
    simp [show ¬ tb.tokens < tb.bucketSize by omega]
  · intro h
    unfold refillTick
    by_cases h2 : tb.tokens < tb.bucketSize <;> simp [h2] <;> omega

/-- C5 witness: on a capacity-3 bucket with 2 tokens one tick yields 3
tokens, and on a full capacity-3 bucket a tick is a no-op. -/
theorem refill_adds_at_most_one_witness :
    (refillTick ((NewTokenBucket 3 1).Allow.2)).tokens = 3 ∧
    refillTick (NewTokenBucket 3 1) = NewTokenBucket 3 1 := by
  constructor
  · have h1 := (refill_adds_at_most_one ((NewTokenBucket 3 1).Allow.2)).2.1 (by decide)
    have h2 : ((NewTokenBucket 3 1).Allow.2).tokens = 2 := by decide
    omega
  · exact (refill_adds_at_most_one (NewTokenBucket 3 1)).2.2.1 (by decide)

/-- C7: NewTokenBucket substitutes the default size 10 when the size
argument is non-positive and the default interval 1s (1000000000 ns)
when the interval argument is non-positive, keeps positive arguments
unchanged, and the bucket starts full: AvailableTokens equals
BucketSize right after construction, with the accessors reporting the
substituted values. -/
theorem new_defaults_and_full (cap rate : Int) :
    (cap ≤ 0 → (NewTokenBucket cap rate).BucketSize = 10) ∧
    (0 < cap → ((NewTokenBucket cap rate).BucketSize : Int) = cap) ∧
    (rate ≤ 0 → (NewTokenBucket cap rate).RefillRate = 1000000000) ∧
    (0 < rate → (NewTokenBucket cap rate).RefillRate = rate) ∧
    (NewTokenBucket cap rate).AvailableTokens = (NewTokenBucket cap rate).BucketSize ∧
    DefaultBucketSize = 10 ∧ DefaultRefillRate = 1000000000 := by
  unfold NewTokenBucket TokenBucket.BucketSize TokenBucket.RefillRate
    TokenBucket.AvailableTokens DefaultBucketSize DefaultRefillRate
  refine ⟨?_, ?_, ?_, ?_, rfl, rfl, rfl⟩
  · intro h
    simp [h]
  · intro h
    simp only [if_neg (show ¬ cap ≤ 0 by omega)]
    omega
  · intro h
    simp [h]
  · intro h
    simp only [if_neg (show ¬ rate ≤ 0 by omega)]

/-- C7 witness: with both arguments non-positive the defaults 10 and 1s
are used and the bucket starts with 10 available tokens. -/
theorem new_defaults_and_full_witness :
    (NewTokenBucket (-5) 0).BucketSize = 10 ∧
    (NewTokenBucket (-5) 0).RefillRate = 1000000000 ∧
    (NewTokenBucket (-5) 0).AvailableTokens = (NewTokenBucket (-5) 0).BucketSize := by
  have h := new_defaults_and_full (-5) 0
  exact ⟨h.1 (by decide), h.2.2.1 (by decide), h.2.2.2.2.1⟩

/-- C8: Stop is idempotent (a second Stop is the identity on the state
reached by the first, so the stop channel is never closed twice and
nothing panics) and the stopped flag is monotonic: once true, no
subsequent event of any kind resets it. -/
theorem stop_idempotent_monotonic (tb : TokenBucket) (ops : List Op) :
    (tb.Stop).Stop = tb.Stop ∧
    (tb.stopped = true → tb.Stop = tb) ∧
    (tb.stopped = true → (run tb ops).stopped = true) := by
  have h2 : ∀ t : TokenBucket, t.stopped = true → t.Stop = t := by
    intro t h
    unfold TokenBucket.Stop
    simp [h]
  have hs : (tb.Stop).stopped = true := by
    unfold TokenBucket.Stop
    cases h : tb.stopped <;> simp [h]
  exact ⟨h2 (tb.Stop) hs, h2 tb, run_stopped_mono ops tb⟩

/-- C8 witness: a stopped capacity-2 bucket is unchanged by a second
Stop, and stays stopped across further events. -/
theorem stop_idempotent_monotonic_witness :
    ((NewTokenBucket 2 1).Stop).Stop = (NewTokenBucket 2 1).Stop ∧
    (run ((NewTokenBucket 2 1).Stop) [Op.allow, Op.tick]).stopped = true := by
  have h := stop_idempotent_monotonic ((NewTokenBucket 2 1).Stop) [Op.allow, Op.tick]
  exact ⟨h.2.1 (by decide), h.2.2 (by decide)⟩

end RateLimiter

namespace RateLimiter

/-- One hour in nanoseconds (the refill interval of the C1 scenario). -/
def hourNs : Int := 3600000000000

/-- The C1 scenario state right after Stop: a capacity-1 bucket, drained
by one successful Allow, then stopped. The stop channel is closed, the
ticker is stopped, and with a one-hour interval no tick is pending. -/
def c1StoppedBucket : TokenBucket := (((NewTokenBucket 1 hourNs).Allow).2).Stop

/-- A context with no deadline that is never cancelled, as obtained from
context.Background(); the err field is irrelevant while done is false. -/
def backgroundCtx : Ctx := ⟨false, GoError.ctxCanceled⟩

/-- C1: the claim is refuted by the code (code bug). The claim says a
caller blocked inside Wait when Stop() is invoked returns the stopped
error promptly; but the select of Wait (part_011 lines 87-92) has only
the token receive and ctx.Done() as cases — the stop channel closed by
Stop is not among them. In the claim scenario (capacity 1, one-hour
interval, drained by one Allow, five goroutines blocked in Wait on a
background context, then Stop), this theorem shows that although the
stop channel is closed, after every further event history containing no
refill tick (none can occur: Stop stopped the ticker, the refill
goroutine exits, and no tick was pending within 100ms of a one-hour
interval) the blocked select never becomes ready, so the blocked Wait
calls never return at all — not within 100ms, not ever. -/
theorem blocked_wait_never_woken_by_stop (ops : List Op) (h : Op.tick ∉ ops) :
    c1StoppedBucket.stopChClosed = true ∧
    c1StoppedBucket.stopped = true ∧
    (run c1StoppedBucket ops).waitSelectReady backgroundCtx = false := by
  refine ⟨by decide, by decide, ?_⟩
  have h1 := run_tokens_mono_no_tick ops c1StoppedBucket h
  have h2 : c1StoppedBucket.tokens = 0 := by decide
  have h3 : (run c1StoppedBucket ops).tokens = 0 := by omega
  unfold TokenBucket.waitSelectReady
  simp [h3, backgroundCtx]

/-- C1 witness: the empty continuation and a continuation of further
Allow and Wait events both leave the blocked select unready. -/
theorem blocked_wait_never_woken_by_stop_witness :
    Op.tick ∉ [Op.allow, Op.wait backgroundCtx true BlockedOutcome.stuck, Op.stop] ∧
    (run c1StoppedBucket
        [Op.allow, Op.wait backgroundCtx true BlockedOutcome.stuck, Op.stop]).waitSelectReady
      backgroundCtx = false := by
  refine ⟨by decide, ?_⟩
  exact (blocked_wait_never_woken_by_stop
    [Op.allow, Op.wait backgroundCtx true BlockedOutcome.stuck, Op.stop] (by decide)).2.2

/-- C4: a freshly constructed bucket of positive capacity c grants
exactly c consecutive Allow calls (all true), the next Allow returns
false, and after one refill tick a further Allow returns true. -/
theorem fresh_bucket_grants_exactly_capacity (c r : Int) (h : 0 < c) :
    (allowN (NewTokenBucket c r) c.toNat).1 = List.replicate c.toNat true ∧
    ((allowN (NewTokenBucket c r) c.toNat).2.Allow).1 = false ∧
    ((refillTick ((allowN (NewTokenBucket c r) c.toNat).2)).Allow).1 = true := by
  have hbs : (NewTokenBucket c r).bucketSize = c.toNat := by
    unfold NewTokenBucket
    simp [show ¬ c ≤ 0 by omega]
  have htk : (NewTokenBucket c r).tokens = c.toNat := by
    unfold NewTokenBucket
    simp [show ¬ c ≤ 0 by omega]
  have hst : (NewTokenBucket c r).stopped = false := by
    unfold NewTokenBucket
    simp
  have hfull := allowN_full c.toNat (NewTokenBucket c r) hst (le_of_eq htk.symm)
  rw [hfull]
  refine ⟨rfl, ?_, ?_⟩
  · unfold TokenBucket.Allow
    simp [hst, htk]
  · unfold refillTick TokenBucket.Allow
    simp [hst, htk, hbs, show 0 < c.toNat by omega]

/-- C4 witness: capacity 3, interval 100ms; five consecutive Allow calls
yield true, true, true, false, false, and after one refill tick a sixth
Allow yields true. -/
theorem fresh_bucket_grants_exactly_capacity_witness :
    (0 : Int) < 3 ∧
    (allowN (NewTokenBucket 3 100000000) 5).1 = [true, true, true, false, false] ∧
    (allowN (NewTokenBucket 3 100000000) (3 : Int).toNat).1 = List.replicate (3 : Int).toNat true ∧
    ((allowN (NewTokenBucket 3 100000000) (3 : Int).toNat).2.Allow).1 = false ∧
    ((refillTick ((allowN (NewTokenBucket 3 100000000) (3 : Int).toNat).2)).Allow).1 = true := by
  have h := fresh_bucket_grants_exactly_capacity 3 100000000 (by decide)
  exact ⟨by decide, by decide, h.1, h.2.1, h.2.2⟩

/-- C6 counterexample: the claim says Wait on a non-stopped bucket with
an already-done context returns the context error and consumes nothing
even when tokens are available; but when a token is available and
ctx.Done() is closed, both select cases are ready and Go select picks
either. Here the token pick is taken on a fresh capacity-1 bucket with
an already-cancelled context: Wait returns nil and consumes the token. -/
theorem wait_done_ctx_may_grant_counterexample :
    (NewTokenBucket 1 DefaultRefillRate).stopped = false ∧
    0 < (NewTokenBucket 1 DefaultRefillRate).tokens ∧
    (NewTokenBucket 1 DefaultRefillRate).Wait ⟨true, GoError.ctxCanceled⟩ true
        BlockedOutcome.stuck
      = some (WaitRes.ok, { NewTokenBucket 1 DefaultRefillRate with tokens := 0 }) := by
  decide

/-- C6 (amended): for every non-stopped bucket with no token immediately
available, Wait with an already-done context returns that context's own
error unchanged, immediately and without consuming a token; when a token
is available the select race may grant the token instead. -/
theorem wait_done_ctx_errors_when_empty (tb : TokenBucket) (ctx : Ctx) (p : Bool)
    (bo : BlockedOutcome) (h1 : tb.stopped = false) (h2 : tb.tokens = 0)
    (h3 : ctx.done = true) :
    tb.Wait ctx p bo = some (WaitRes.err ctx.err, tb) := by
  unfold TokenBucket.Wait
  simp [h1, h2, h3]

/-- C6 witness: a drained capacity-1 bucket with a cancelled context. -/
theorem wait_done_ctx_errors_when_empty_witness :
    ((NewTokenBucket 1 1).Allow.2).stopped = false ∧
    ((NewTokenBucket 1 1).Allow.2).tokens = 0 ∧
    ((NewTokenBucket 1 1).Allow.2).Wait ⟨true, GoError.ctxDeadlineExceeded⟩ false
        BlockedOutcome.stuck
      = some (WaitRes.err GoError.ctxDeadlineExceeded, (NewTokenBucket 1 1).Allow.2) := by
  refine ⟨by decide, by decide, ?_⟩
  exact wait_done_ctx_errors_when_empty ((NewTokenBucket 1 1).Allow.2)
    ⟨true, GoError.ctxDeadlineExceeded⟩ false BlockedOutcome.stuck
    (by decide) (by decide) (by decide)

end RateLimiter

namespace Client

open RateLimiter

/-- When the bucket is live, the context is not done and at least n
tokens are buffered, the n-iteration acquisition loop succeeds and
removes exactly n tokens. -/
theorem tokenWaitLoop_all_granted (n : Nat) : ∀ (tl : TokenBucket) (ctx : Ctx)
    (envs : Nat → WaitEnv), tl.stopped = false → ctx.done = false →
    n ≤ tl.tokens →
    tokenWaitLoop ctx envs tl n
      = some (Except.ok (), { tl with tokens := tl.tokens - n }) := by
  induction n with
  | zero =>
      intro tl ctx envs h1 h2 h3
      simp [tokenWaitLoop]
  | succ n ih =>
      intro tl ctx envs h1 h2 h3
      have ht : 0 < tl.tokens := by omega
      have hw : tl.Wait ctx (envs 0).pickToken (envs 0).blocked
          = some (WaitRes.ok, { tl with tokens := tl.tokens - 1 }) := by
        unfold TokenBucket.Wait
        simp [h1, h2, ht]
      have ih2 := ih { tl with tokens := tl.tokens - 1 } ctx (fun i => envs (i + 1))
        (by simp [h1]) h2 (by simp; omega)
      have harith : tl.tokens - 1 - n = tl.tokens - (n + 1) := by omega
      have hstep : tokenWaitLoop ctx envs tl (n + 1)
          = tokenWaitLoop ctx (fun i => envs (i + 1))
              { tl with tokens := tl.tokens - 1 } n := by
        rw [tokenWaitLoop, hw]
      rw [hstep, ih2]
      simp
      omega

/-- C9: the wrapper first Waits once on the request-count limiter, then
Waits N times on the unit-count limiter where N is the cost estimate
computed before the gated operation; whenever any of those acquisitions
fails the wrapper returns the wrapped error and the gated API call does
not execute (the executed flag is true exactly on the ok and apiErr
results); a request-limiter failure leaves the unit-count limiter
untouched; and when both limiters are live, the context is not done and
enough tokens are buffered, exactly one token is consumed from the
request bucket and exactly N from the unit bucket before the gated call
runs. A run in which some Wait never returns is the none result, in
which the gated call does not execute either. -/
theorem createChatCompletion_gating (rl tl : TokenBucket) (ctx : Ctx)
    (cr : Except String Nat) (reqEnv : WaitEnv) (tokEnvs : Nat → WaitEnv)
    (apiOk : Bool) :
    (∀ r c2 ex, CreateChatCompletion ⟨rl, tl⟩ ctx cr reqEnv tokEnvs apiOk
        = some (r, c2, ex) → (ex = true ↔ (r = CCResult.ok ∨ r = CCResult.apiErr))) ∧
    (∀ e c2 ex, CreateChatCompletion ⟨rl, tl⟩ ctx cr reqEnv tokEnvs apiOk
        = some (CCResult.reqLimitErr e, c2, ex) → c2.tokenLimiter = tl) ∧
    (rl.stopped = false → tl.stopped = false → ctx.done = false →
      0 < rl.tokens → inputTokensOf cr ≤ tl.tokens →
      CreateChatCompletion ⟨rl, tl⟩ ctx cr reqEnv tokEnvs apiOk
        = some (if apiOk then CCResult.ok else CCResult.apiErr,
                ⟨{ rl with tokens := rl.tokens - 1 },
                 { tl with tokens := tl.tokens - inputTokensOf cr }⟩,
                true)) := by
  refine ⟨?_, ?_, ?_⟩
  · intro r c2 ex heq
    unfold CreateChatCompletion at heq
    split at heq
    · simp at heq
    · simp only [Option.some.injEq, Prod.mk.injEq] at heq
      obtain ⟨hr, _, hex⟩ := heq
      subst hr
      subst hex
      simp
    · split at heq
      · simp at heq
      · simp only [Option.some.injEq, Prod.mk.injEq] at heq
        obtain ⟨hr, _, hex⟩ := heq
        subst hr
        subst hex
        simp
      · simp only [Option.some.injEq, Prod.mk.injEq] at heq
        obtain ⟨hr, _, hex⟩ := heq
        subst hex
        cases apiOk <;> simp at hr <;> subst hr <;> simp
  · intro e c2 ex heq
    unfold CreateChatCompletion at heq
    split at heq
    · simp at heq
    · simp only [Option.some.injEq, Prod.mk.injEq] at heq
      obtain ⟨_, hc, _⟩ := heq
      subst hc
      rfl
    · split at heq
      · simp at heq
      · simp at heq
      · cases apiOk <;> simp at heq
  · intro hrs hts hcd hrt hn
    have hrw : rl.Wait ctx reqEnv.pickToken reqEnv.blocked
        = some (WaitRes.ok, { rl with tokens := rl.tokens - 1 }) := by
      unfold TokenBucket.Wait
      simp [hrs, hcd, hrt]
    have hloop := tokenWaitLoop_all_granted (inputTokensOf cr) tl ctx tokEnvs hts hcd hn
    unfold CreateChatCompletion
    simp only [hrw, hloop]

/-- C9 witness: request bucket of capacity 10, unit bucket of capacity
1000, a live context and an estimate of 50 units: the wrapper admits the
call, consuming 1 request token and 50 unit tokens, and the gated call
executes. -/
theorem createChatCompletion_gating_witness :
    CreateChatCompletion ⟨NewTokenBucket 10 1, NewTokenBucket 1000 1⟩
        ⟨false, GoError.ctxCanceled⟩ (Except.ok 50) ⟨true, BlockedOutcome.stuck⟩
        (fun _ => ⟨true, BlockedOutcome.stuck⟩) true
      = some (CCResult.ok,
              ⟨{ NewTokenBucket 10 1 with tokens := 9 },
               { NewTokenBucket 1000 1 with tokens := 950 }⟩,
              true) := by
  have h := (createChatCompletion_gating (NewTokenBucket 10 1) (NewTokenBucket 1000 1)
      ⟨false, GoError.ctxCanceled⟩ (Except.ok 50) ⟨true, BlockedOutcome.stuck⟩
      (fun _ => ⟨true, BlockedOutcome.stuck⟩) true).2.2
      (by decide) (by decide) (by decide) (by decide) (by decide)
  simpa using h

/-- C10: when the input-token cost estimation fails, the estimate used
is 0, the per-unit acquisition loop runs zero times, and the outcome is
exactly that of the request-count dimension alone, with the unit-count
limiter returned untouched in every case. -/
theorem createChatCompletion_count_error_skips_unit_bucket (rl tl : TokenBucket)
    (ctx : Ctx) (msg : String) (reqEnv : WaitEnv) (tokEnvs : Nat → WaitEnv)
    (apiOk : Bool) :
    inputTokensOf (Except.error msg) = 0 ∧
    CreateChatCompletion ⟨rl, tl⟩ ctx (Except.error msg) reqEnv tokEnvs apiOk
      = match rl.Wait ctx reqEnv.pickToken reqEnv.blocked with
        | none => none
        | some (WaitRes.err e, rl2) => some (CCResult.reqLimitErr e, ⟨rl2, tl⟩, false)
        | some (WaitRes.ok, rl2) =>
            some (if apiOk then CCResult.ok else CCResult.apiErr, ⟨rl2, tl⟩, true) := by
  refine ⟨rfl, ?_⟩
  unfold CreateChatCompletion
  rcases h : rl.Wait ctx reqEnv.pickToken reqEnv.blocked with _ | ⟨r1, rl2⟩
  · rfl
  · cases r1 <;> simp [inputTokensOf, tokenWaitLoop]

end Client
